import Mathlib

/-! shm_access: the memory-window access layer

A shallow embedding of `shm_access.c` (seek, read, write, map over a fixed
physical memory window) together with the properties its specification
states about it.

The module targets a 64-bit kernel (Xilinx ZynqMP). Machine integers are
mathematical integers with explicit reduction modulo `2^64`: `unsigned long`,
`size_t` and `unsigned long long` are naturals below `2^64`; `loff_t` and
`ssize_t` are integers in `[-2^63, 2^63)`. Conversions between them and signed
arithmetic wrap around, as they do in the kernel's build.

The module parameters `mem_start` and `mem_size` are arguments of the functions
that read them.
-/

namespace ShmAccess

/-! ## Machine words -/

/-- Conversion of a signed value to `unsigned long` / `unsigned long long`. -/
def toU64 (i : Int) : Nat := (i % 18446744073709551616).toNat

/-- Conversion of an unsigned 64-bit value to `loff_t` / `ssize_t`. -/
def toS64 (n : Nat) : Int :=
  if n % 18446744073709551616 < 9223372036854775808 then ((n % 18446744073709551616 : Nat) : Int)
  else ((n % 18446744073709551616 : Nat) : Int) - 18446744073709551616

/-- Signed 64-bit wrap-around of an integer result (the kernel is built with wrapping signed arithmetic). -/
def wrapS64 (i : Int) : Int := toS64 (toU64 i)

/-- A value that fits `loff_t` / `ssize_t`. -/
def InS64 (i : Int) : Prop := -9223372036854775808 ≤ i ∧ i < 9223372036854775808

instance (i : Int) : Decidable (InS64 i) := by unfold InS64; infer_instance

/-! ## Constants of the kernel headers the module uses

The seek origins, error numbers and mapping flags carry their Linux values. -/

def SEEK_SET : Int := 0
def SEEK_CUR : Int := 1
def SEEK_END : Int := 2

def EIO : Int := 5
def EAGAIN : Int := 11
def ENOMEM : Int := 12
def EFAULT : Int := 14
def EBUSY : Int := 16
def EINVAL : Int := 22
def EOVERFLOW : Int := 75

def VM_IO : Nat := 0x00004000
def VM_DONTEXPAND : Nat := 0x00040000
def VM_DONTDUMP : Nat := 0x04000000
/-- The fallback definition of line 34. -/
def VM_RESERVED : Nat := VM_DONTEXPAND ||| VM_DONTDUMP

/-! ## Data model -/

/-- The bookkeeping record `struct shm_access_local`. -/
structure shm_access_local where
  mem_start : Nat
  mem_end : Nat
  base_addr : Nat
deriving DecidableEq, Repr

/-- The part of `struct file` the module touches: the session cursor `f_pos` (a `loff_t`). -/
structure File where
  f_pos : Int
deriving DecidableEq, Repr

/-- Kernel virtual memory: the byte stored at each address. The window set up by
`ioremap_nocache` occupies `[base_addr, base_addr + mem_size)`. -/
abbrev Mem := Nat → Nat

/-! ## The user-copy primitives

`copy_to_user` and `copy_from_user` belong to the kernel, not to the module.
They follow their documented contract: the caller's buffer is a run of
`buf.length` accessible bytes, the primitive transfers bytes from the start
until the request is complete or the buffer ends, and it returns the number of
bytes it could not transfer (zero on success). -/

/-- Modelled from the spec: the kernel primitive behind "the copy-out to the caller's buffer",
which the module calls and does not define. The call `copy_to_user(buf, from, n)` yields the
buffer afterwards and the number of bytes not copied. -/
def copy_to_user (buf : List Nat) (io : Mem) (src : Nat) (n : Nat) : List Nat × Nat :=
  let k := min n buf.length
  ((List.range k).map (fun i => io (src + i)) ++ buf.drop k, n - k)

/-- Modelled from the spec: the kernel primitive behind "copies in", which the module calls
and does not define. The call `copy_from_user(to, buf, n)` yields kernel memory afterwards and
the number of bytes not copied. -/
def copy_from_user (io : Mem) (dst : Nat) (buf : List Nat) (n : Nat) : Mem × Nat :=
  let k := min n buf.length
  (fun a => if dst ≤ a ∧ a < dst + k then buf.getD (a - dst) 0 else io a, n - k)

/-! ## seek -/

/-- The function `shm_access_lseek` (lines 128-168): the file afterwards and the returned `loff_t`. -/
def shm_access_lseek (mem_size : Nat) (file : File) (offset : Int) (orig : Int) : File × Int :=
  let sw : Int × Int :=
    if orig = SEEK_CUR then (wrapS64 (offset + file.f_pos), 0)
    else if orig = SEEK_SET then (offset, 0)
    else if orig = SEEK_END then (toS64 (toU64 ((mem_size : Int) - offset)), 0)
    else (offset, -EINVAL)
  let offset := sw.1
  let ret := sw.2
  if ret ≥ 0 then
    if toU64 offset ≥ mem_size then (file, -EOVERFLOW)
    else
      let file : File := { file with f_pos := offset }
      (file, file.f_pos)
  else (file, ret)

/-! ## read and write -/

/-- What a read or a write leaves behind. -/
structure Transfer where
  /-- the returned `ssize_t` -/
  ret : Int
  /-- the value of `*ppos` afterwards -/
  ppos : Int
  /-- kernel memory afterwards -/
  io : Mem
  /-- the caller's buffer afterwards -/
  buf : List Nat
  /-- the window offset and the byte count handed to the copy primitive, when it was called -/
  call : Option (Nat × Nat)

/-- The pointer `lp->base_addr + p` of lines 184 and 212: the address of window byte `p`.
Pointer arithmetic is 64-bit. -/
def window_addr (l : shm_access_local) (p : Nat) : Nat :=
  (l.base_addr + p) % 18446744073709551616

/-- The length computation shared by read (lines 172-177) and write (lines 198-204):
the `ssize_t` stored in `read` / `wrote`. -/
def clamp (mem_size : Nat) (p : Nat) (count : Nat) : Int :=
  if (p + count) % 18446744073709551616 > mem_size then toS64 (toU64 ((mem_size : Int) - (p : Int)))
  else toS64 count

/-- The function `shm_access_read` (lines 170-194). -/
def shm_access_read (mem_size : Nat) (lp : Option shm_access_local) (io : Mem)
    (buf : List Nat) (count : Nat) (ppos : Int) : Transfer :=
  let p := toU64 ppos
  let read := clamp mem_size p count
  match lp with
  | none => { ret := -EFAULT, ppos := ppos, io := io, buf := buf, call := none }
  | some l =>
    let r := copy_to_user buf io (window_addr l p) (toU64 read)
    if r.2 ≠ 0 then
      { ret := -EFAULT, ppos := ppos, io := io, buf := r.1, call := some (p, toU64 read) }
    else
      let p1 := (p + toU64 read) % 18446744073709551616
      { ret := read, ppos := toS64 p1, io := io, buf := r.1, call := some (p, toU64 read) }

/-- The function `shm_access_write` (lines 196-222). -/
def shm_access_write (mem_size : Nat) (lp : Option shm_access_local) (io : Mem)
    (buf : List Nat) (count : Nat) (ppos : Int) : Transfer :=
  let p := toU64 ppos
  let wrote := clamp mem_size p count
  match lp with
  | none => { ret := -EFAULT, ppos := ppos, io := io, buf := buf, call := none }
  | some l =>
    let r := copy_from_user io (window_addr l p) buf (toU64 wrote)
    if r.2 ≠ 0 then
      { ret := -EFAULT, ppos := ppos, io := r.1, buf := buf, call := some (p, toU64 wrote) }
    else
      let p1 := (p + toU64 wrote) % 18446744073709551616
      { ret := wrote, ppos := toS64 p1, io := r.1, buf := buf, call := some (p, toU64 wrote) }

/-! ## map -/

/-- The fields of `struct vm_area_struct` the module reads and writes. -/
structure Vma where
  vm_start : Nat
  vm_end : Nat
  vm_pgoff : Nat
  vm_flags : Nat
  /-- whether `vm_page_prot` carries the non-cached attribute -/
  noncached : Bool
deriving DecidableEq, Repr

/-- The request `io_remap_pfn_range(vma, addr, pfn, size, prot)` as the module issues it. -/
structure Remap where
  addr : Nat
  pfn : Nat
  size : Nat
  noncached : Bool
deriving DecidableEq, Repr

/-- The first physical address a remap request covers, for a page of `2^page_shift` bytes. -/
def Remap.phys (page_shift : Nat) (r : Remap) : Nat := r.pfn * 2 ^ page_shift

/-- What `shm_access_mmap` leaves behind. -/
structure MapResult where
  ret : Int
  file : File
  vma : Vma
  /-- the mapping established, when the call succeeded -/
  mapped : Option Remap
deriving DecidableEq, Repr

/-- The function `shm_access_mmap` (lines 224-258). `page_shift` is the kernel constant
`PAGE_SHIFT`; `io_remap_pfn_range` is the kernel primitive, returning zero on success. -/
def shm_access_mmap (mem_start mem_size page_shift : Nat) (io_remap_pfn_range : Remap → Int)
    (file : File) (vma : Vma) : MapResult :=
  let size := toU64 ((vma.vm_end : Int) - (vma.vm_start : Int))
  if vma.vm_pgoff ≠ 0 then { ret := -EINVAL, file := file, vma := vma, mapped := none }
  else if size > mem_size then { ret := -EINVAL, file := file, vma := vma, mapped := none }
  else
    let vma : Vma := { vma with noncached := true }
    let vma : Vma := { vma with vm_flags := vma.vm_flags ||| VM_IO }
    let vma : Vma := { vma with vm_flags := vma.vm_flags ||| VM_RESERVED }
    let req : Remap :=
      { addr := vma.vm_start, pfn := mem_start / 2 ^ page_shift, size := size,
        noncached := vma.noncached }
    if io_remap_pfn_range req ≠ 0 then { ret := -EAGAIN, file := file, vma := vma, mapped := none }
    else { ret := 0, file := file, vma := vma, mapped := some req }

/-- The length a map call requests, as the code computes it: `vm_end - vm_start`. -/
def Vma.length (vma : Vma) : Nat := toU64 ((vma.vm_end : Int) - (vma.vm_start : Int))

/-- The remap request the module issues for a map call that passed both checks. -/
def Vma.request (mem_start page_shift : Nat) (vma : Vma) : Remap :=
  { addr := vma.vm_start, pfn := mem_start / 2 ^ page_shift, size := vma.length, noncached := true }

/-! ## The specification's seek target -/

/-- Following the spec's words: the target `new_offset` of a seek, as a mathematical integer
(`FromStart`: the requested offset; `FromCurrent`: session offset plus the requested offset;
`FromEnd`: size minus the requested offset). -/
def spec_new_offset (mem_size : Nat) (file : File) (offset : Int) (orig : Int) : Int :=
  if orig = SEEK_SET then offset
  else if orig = SEEK_CUR then file.f_pos + offset
  else (mem_size : Int) - offset

/-! ## setup and teardown

The kernel primitives the window manager calls (`kmalloc`, `kfree`,
`request_mem_region`, `release_mem_region`, `ioremap_nocache`, `iounmap`) act on
the resources recorded in `Kern`. The outcomes the module cannot control are
arguments of `shm_access_probe`: what `kmalloc` returns (`none` for NULL, otherwise
the uninitialised contents of the new block) and the address `ioremap_nocache`
returns (`0` for NULL). -/

/-- The module's global `lp` and the kernel resources the window manager acquires. -/
structure Kern where
  /-- the global `lp`: `none` is NULL, otherwise the record read through the pointer -/
  lp : Option shm_access_local
  /-- whether the block `lp` points at is still allocated -/
  lp_live : Bool
  /-- the number of bookkeeping blocks currently allocated -/
  blocks : Nat
  /-- the number of `kfree` calls on a block that was not allocated -/
  bad_frees : Nat
  /-- the reserved physical regions, as (start, length) -/
  regions : List (Nat × Nat)
  /-- the live mappings, as (virtual base, physical start, length) -/
  maps : List (Nat × Nat × Nat)
deriving DecidableEq, Repr

/-- The state at module load: `lp = NULL` (line 60), nothing allocated or mapped; `regions`
are the physical regions other owners hold. -/
def Kern.init (regions : List (Nat × Nat)) : Kern :=
  { lp := none, lp_live := false, blocks := 0, bad_frees := 0, regions := regions, maps := [] }

/-- Modelled from the spec: the kernel primitive behind "reserves the physical range for
exclusive use (fails with RegionBusy if another owner already holds it)". It fails when a
reserved region overlaps `[start, start + n)` and records the reservation otherwise. -/
def request_mem_region (regions : List (Nat × Nat)) (start n : Nat) : Option (List (Nat × Nat)) :=
  if regions.any (fun r => decide (r.1 < start + n ∧ start < r.1 + r.2)) then none
  else some ((start, n) :: regions)

/-- Modelled from the spec: the kernel primitive behind "releases the reserved region"; it
drops the reservation recorded for `(start, n)`. -/
def release_mem_region (regions : List (Nat × Nat)) (start n : Nat) : List (Nat × Nat) :=
  regions.erase (start, n)

/-- Modelled from the spec: the kernel primitive behind "unmaps"; it drops the mapping whose
virtual base is `addr`. -/
def iounmap (maps : List (Nat × Nat × Nat)) (addr : Nat) : List (Nat × Nat × Nat) :=
  maps.filter (fun m => decide (m.1 ≠ addr))

/-- Modelled from the spec: the kernel primitive behind "discards bookkeeping", applied to the
block `lp` points at. -/
def kfree (k : Kern) : Kern :=
  if k.lp_live then { k with lp_live := false, blocks := k.blocks - 1 }
  else { k with bad_frees := k.bad_frees + 1 }

/-- The function `shm_access_probe` (lines 62-102): the state afterwards and the returned `rc`. -/
def shm_access_probe (mem_start mem_size : Nat) (kmalloc : Option shm_access_local)
    (ioremap_nocache : Nat) (k : Kern) : Kern × Int :=
  match kmalloc with
  | none => ({ k with lp := none, lp_live := false }, -ENOMEM)
  | some fresh =>
    let k : Kern := { k with lp := some fresh, lp_live := true, blocks := k.blocks + 1 }
    let l : shm_access_local := { fresh with mem_start := mem_start }
    let l : shm_access_local :=
      { l with mem_end := toU64 ((mem_start : Int) + (mem_size : Int) - 1) }
    let k : Kern := { k with lp := some l }
    let len := toU64 ((l.mem_end : Int) - (l.mem_start : Int) + 1)
    match request_mem_region k.regions l.mem_start len with
    | none => (kfree k, -EBUSY)
    | some regions =>
      let k : Kern := { k with regions := regions }
      let l : shm_access_local := { l with base_addr := ioremap_nocache }
      let k : Kern :=
        { k with lp := some l,
                 maps := if ioremap_nocache ≠ 0 then (ioremap_nocache, l.mem_start, len) :: k.maps
                         else k.maps }
      if l.base_addr = 0 then
        let k : Kern := { k with regions := release_mem_region k.regions l.mem_start len }
        (kfree k, - EIO)
      else (k, 0)

/-- The function `shm_access_remove` (lines 104-114). -/
def shm_access_remove (k : Kern) : Kern × Int :=
  match k.lp with
  | none => (k, 0)
  | some l =>
    let k : Kern := { k with maps := iounmap k.maps l.base_addr }
    let k : Kern :=
      { k with regions := release_mem_region k.regions l.mem_start
                  (toU64 ((l.mem_end : Int) - (l.mem_start : Int) + 1)) }
    let k : Kern := kfree k
    ({ k with lp := none }, 0)

/-! ## Sessions

A session is an open file; the host kernel hands its position to read and write
through `ppos` and a fresh session starts at position zero. -/

/-- One call on a session. -/
inductive Op where
  | seek (offset : Int) (orig : Int)
  | read (buf : List Nat) (count : Nat)
  | write (buf : List Nat) (count : Nat)

/-- The arguments of a call are machine words: the requested offset fits `loff_t`, the length
fits `size_t`. -/
def Op.typed : Op → Prop
  | Op.seek offset _ => InS64 offset
  | Op.read _ count => count < 18446744073709551616
  | Op.write _ count => count < 18446744073709551616

instance (op : Op) : Decidable op.typed := by
  cases op <;> unfold Op.typed <;> infer_instance

/-- Modelled from the spec: the dispatch of one call on a session ("let p = session.offset",
"advances session.offset"), which the host kernel performs around the module's functions. The
state is the session's file and kernel memory. -/
def step (mem_size : Nat) (lp : Option shm_access_local) (s : File × Mem) : Op → File × Mem
  | Op.seek offset orig => ((shm_access_lseek mem_size s.1 offset orig).1, s.2)
  | Op.read buf count =>
    ({ f_pos := (shm_access_read mem_size lp s.2 buf count s.1.f_pos).ppos },
     (shm_access_read mem_size lp s.2 buf count s.1.f_pos).io)
  | Op.write buf count =>
    ({ f_pos := (shm_access_write mem_size lp s.2 buf count s.1.f_pos).ppos },
     (shm_access_write mem_size lp s.2 buf count s.1.f_pos).io)

/-- A finite sequence of calls on a session. -/
def run (mem_size : Nat) (lp : Option shm_access_local) (s : File × Mem) (ops : List Op) :
    File × Mem :=
  ops.foldl (step mem_size lp) s

/-! # Properties -/

/-! ## Machine words -/

theorem toU64_lt (i : Int) : toU64 i < 18446744073709551616 := by
  unfold toU64; omega

theorem toU64_of_range (i : Int) (h0 : 0 ≤ i) (h1 : i < 18446744073709551616) :
    toU64 i = i.toNat := by
  unfold toU64; omega

theorem toU64_cast (n : Nat) (h : n < 18446744073709551616) : toU64 (n : Int) = n := by
  unfold toU64; omega

theorem toU64_of_neg (i : Int) (h0 : -18446744073709551616 ≤ i) (h1 : i < 0) :
    toU64 i = (i + 18446744073709551616).toNat := by
  unfold toU64; omega

theorem toS64_of_lt (n : Nat) (h : n < 9223372036854775808) : toS64 n = (n : Int) := by
  unfold toS64
  have : n % 18446744073709551616 = n := by omega
  rw [this]; simp [h]

theorem toS64_of_ge (n : Nat) (h0 : 9223372036854775808 ≤ n) (h1 : n < 18446744073709551616) :
    toS64 n = (n : Int) - 18446744073709551616 := by
  unfold toS64
  have : n % 18446744073709551616 = n := by omega
  rw [this]
  have : ¬ n < 9223372036854775808 := by omega
  simp [this]

theorem toU64_toS64 (n : Nat) (h : n < 18446744073709551616) : toU64 (toS64 n) = n := by
  by_cases hn : n < 9223372036854775808
  · rw [toS64_of_lt n hn]; exact toU64_cast n h
  · rw [toS64_of_ge n (by omega) h]; unfold toU64; omega

theorem wrapS64_of_range (i : Int) (h0 : 0 ≤ i) (h1 : i < 9223372036854775808) :
    wrapS64 i = i := by
  unfold wrapS64
  rw [toU64_of_range i h0 (by omega), toS64_of_lt _ (by omega)]
  omega

/-! ## seek -/

theorem lseek_set_eq (mem_size : Nat) (file : File) (offset : Int) :
    shm_access_lseek mem_size file offset SEEK_SET
      = if toU64 offset ≥ mem_size then (file, -EOVERFLOW) else ({ f_pos := offset }, offset) := by
  unfold shm_access_lseek
  simp [SEEK_SET, SEEK_CUR]

theorem lseek_cur_eq (mem_size : Nat) (file : File) (offset : Int) :
    shm_access_lseek mem_size file offset SEEK_CUR
      = if toU64 (wrapS64 (offset + file.f_pos)) ≥ mem_size then (file, -EOVERFLOW)
        else ({ f_pos := wrapS64 (offset + file.f_pos) }, wrapS64 (offset + file.f_pos)) := by
  unfold shm_access_lseek
  simp [SEEK_CUR]

theorem lseek_end_eq (mem_size : Nat) (file : File) (offset : Int) :
    shm_access_lseek mem_size file offset SEEK_END
      = if toU64 (toS64 (toU64 ((mem_size : Int) - offset))) ≥ mem_size then (file, -EOVERFLOW)
        else ({ f_pos := toS64 (toU64 ((mem_size : Int) - offset)) },
              toS64 (toU64 ((mem_size : Int) - offset))) := by
  unfold shm_access_lseek
  simp [SEEK_SET, SEEK_CUR, SEEK_END]

theorem lseek_other_eq (mem_size : Nat) (file : File) (offset orig : Int)
    (h0 : orig ≠ SEEK_SET) (h1 : orig ≠ SEEK_CUR) (h2 : orig ≠ SEEK_END) :
    shm_access_lseek mem_size file offset orig = (file, -EINVAL) := by
  unfold shm_access_lseek
  simp [h0, h1, h2, EINVAL]

theorem wrapS64_unsigned (i : Int) : toU64 (wrapS64 i) = toU64 i := by
  unfold wrapS64
  exact toU64_toS64 _ (toU64_lt i)

theorem lseek_end (mem_size : Nat) (file : File) (r : Int)
    (hsz : mem_size < 9223372036854775808) (h0 : 0 < r) (hr : r ≤ mem_size) :
    shm_access_lseek mem_size file r SEEK_END
        = ({ f_pos := (mem_size : Int) - r }, (mem_size : Int) - r) := by
  have hu : toU64 ((mem_size : Int) - r) = ((mem_size : Int) - r).toNat :=
    toU64_of_range _ (by omega) (by omega)
  have hs : toS64 (((mem_size : Int) - r).toNat) = (mem_size : Int) - r := by
    rw [toS64_of_lt _ (by omega)]; omega
  have hu2 : toU64 ((mem_size : Int) - r) < mem_size := by rw [hu]; omega
  unfold shm_access_lseek
  simp only [SEEK_END, SEEK_CUR, SEEK_SET]
  simp only [hu, hs] at hu2 ⊢
  simp [hu, hu2]

/-- C1: for every session and every requested offset `r` with `0 < r <= size`, a seek from
the end succeeds, returns exactly `size - r` and stores that value as the session offset; with
size `0x10000000`, seeking `0x100` from the end yields `0x0FFFFF00`. -/
theorem C1_seek_from_end (mem_size : Nat) (file : File) (r : Int)
    (hsz : mem_size < 9223372036854775808) (h0 : 0 < r) (hr : r ≤ mem_size) :
    shm_access_lseek mem_size file r SEEK_END
        = ({ f_pos := (mem_size : Int) - r }, (mem_size : Int) - r)
      ∧ shm_access_lseek 0x10000000 file 0x100 SEEK_END = ({ f_pos := 0x0FFFFF00 }, 0x0FFFFF00) := by
  refine ⟨lseek_end mem_size file r hsz h0 hr, ?_⟩
  have h := lseek_end 0x10000000 file 0x100 (by decide) (by decide) (by decide)
  rw [h]; norm_num

theorem C1_seek_from_end_witness :
    shm_access_lseek 4096 ⟨7⟩ 96 SEEK_END = (⟨4000⟩, 4000)
      ∧ shm_access_lseek 0x10000000 ⟨7⟩ 0x100 SEEK_END = (⟨0x0FFFFF00⟩, 0x0FFFFF00) :=
  C1_seek_from_end 4096 ⟨7⟩ 96 (by decide) (by decide) (by decide)

/-- C2 (counterexample): with size `0x10000000`, seeking to `-1` from the start has a target
below the size, yet the seek fails with `EOVERFLOW`. -/
theorem C2_counterexample :
    spec_new_offset 0x10000000 ⟨0⟩ (-1) SEEK_SET < ((0x10000000 : Nat) : Int)
      ∧ shm_access_lseek 0x10000000 ⟨0⟩ (-1) SEEK_SET = (⟨0⟩, -EOVERFLOW) := by
  decide

/-- C2 (amended): for every session offset, requested offset and origin among `SEEK_SET`,
`SEEK_CUR`, `SEEK_END`, a seek whose target is `>= size` fails with `EOVERFLOW` and leaves the
session offset unchanged; a seek whose target satisfies `0 <= target < size` succeeds, stores
the target as the session offset and returns it; and from a non-negative session offset a
seek whose target is negative fails with `EOVERFLOW`, leaving the offset unchanged. -/
theorem C2_seek_bound (mem_size : Nat) (file : File) (offset orig : Int)
    (hsz : mem_size < 9223372036854775808) (hp : InS64 file.f_pos) (ho : InS64 offset)
    (horig : orig = SEEK_SET ∨ orig = SEEK_CUR ∨ orig = SEEK_END) :
    ((mem_size : Int) ≤ spec_new_offset mem_size file offset orig →
        shm_access_lseek mem_size file offset orig = (file, -EOVERFLOW))
      ∧ (0 ≤ spec_new_offset mem_size file offset orig →
          spec_new_offset mem_size file offset orig < mem_size →
          shm_access_lseek mem_size file offset orig
            = ({ f_pos := spec_new_offset mem_size file offset orig },
               spec_new_offset mem_size file offset orig))
      ∧ (0 ≤ file.f_pos → spec_new_offset mem_size file offset orig < 0 →
          shm_access_lseek mem_size file offset orig = (file, -EOVERFLOW)) := by
  obtain ⟨hp0, hp1⟩ := hp
  obtain ⟨ho0, ho1⟩ := ho
  rcases horig with h | h | h
  · subst h
    have ht : spec_new_offset mem_size file offset SEEK_SET = offset := by
      simp [spec_new_offset]
    rw [ht, lseek_set_eq]
    refine ⟨fun hge => ?_, fun h0 hlt => ?_, fun _ hneg => ?_⟩
    · have : toU64 offset ≥ mem_size := by
        rw [toU64_of_range offset (by omega) (by omega)]; omega
      simp [this]
    · have : ¬ toU64 offset ≥ mem_size := by
        rw [toU64_of_range offset h0 (by omega)]; omega
      simp [this]
    · have : toU64 offset ≥ mem_size := by
        rw [toU64_of_neg offset (by omega) hneg]; omega
      simp [this]
  · subst h
    have ht : spec_new_offset mem_size file offset SEEK_CUR = file.f_pos + offset := by
      simp [spec_new_offset, SEEK_CUR, SEEK_SET]
    rw [ht, lseek_cur_eq, wrapS64_unsigned]
    have hc : offset + file.f_pos = file.f_pos + offset := by omega
    rw [hc]
    refine ⟨fun hge => ?_, fun h0 hlt => ?_, fun _ hneg => ?_⟩
    · have : toU64 (file.f_pos + offset) ≥ mem_size := by
        rw [toU64_of_range _ (by omega) (by omega)]; omega
      simp [this]
    · have : ¬ toU64 (file.f_pos + offset) ≥ mem_size := by
        rw [toU64_of_range _ h0 (by omega)]; omega
      simp [this, wrapS64_of_range _ h0 (by omega)]
    · have : toU64 (file.f_pos + offset) ≥ mem_size := by
        rw [toU64_of_neg _ (by omega) hneg]; omega
      simp [this]
  · subst h
    have ht : spec_new_offset mem_size file offset SEEK_END = (mem_size : Int) - offset := by
      simp [spec_new_offset, SEEK_CUR, SEEK_SET, SEEK_END]
    rw [ht, lseek_end_eq, toU64_toS64 _ (toU64_lt _)]
    refine ⟨fun hge => ?_, fun h0 hlt => ?_, fun _ hneg => ?_⟩
    · have : toU64 ((mem_size : Int) - offset) ≥ mem_size := by
        rw [toU64_of_range _ (by omega) (by omega)]; omega
      simp [this]
    · have hu : toU64 ((mem_size : Int) - offset) = ((mem_size : Int) - offset).toNat :=
        toU64_of_range _ h0 (by omega)
      have hs : toS64 (((mem_size : Int) - offset).toNat) = (mem_size : Int) - offset := by
        rw [toS64_of_lt _ (by omega)]; omega
      have : ¬ toU64 ((mem_size : Int) - offset) ≥ mem_size := by rw [hu]; omega
      simp only [this, if_false]
      rw [hu, hs]
    · have : toU64 ((mem_size : Int) - offset) ≥ mem_size := by
        rw [toU64_of_neg _ (by omega) hneg]; omega
      simp [this]

theorem C2_seek_bound_witness :
    shm_access_lseek 4096 ⟨10⟩ 5000 SEEK_CUR = (⟨10⟩, -EOVERFLOW)
      ∧ shm_access_lseek 4096 ⟨10⟩ 5 SEEK_CUR = (⟨15⟩, 15)
      ∧ shm_access_lseek 4096 ⟨10⟩ 5000 SEEK_END = (⟨10⟩, -EOVERFLOW) :=
  ⟨(C2_seek_bound 4096 ⟨10⟩ 5000 SEEK_CUR (by decide) (by decide) (by decide) (by decide)).1
      (by decide),
   (C2_seek_bound 4096 ⟨10⟩ 5 SEEK_CUR (by decide) (by decide) (by decide) (by decide)).2.1
      (by decide) (by decide),
   (C2_seek_bound 4096 ⟨10⟩ 5000 SEEK_END (by decide) (by decide) (by decide) (by decide)).2.2
      (by decide) (by decide)⟩

/-- C9: for every origin tag other than `SEEK_SET`, `SEEK_CUR` and `SEEK_END`, and for every
session offset and requested offset, the seek fails with `EINVAL` (it is neither `EOVERFLOW`
nor a success) and leaves the session offset unchanged. -/
theorem C9_invalid_origin (mem_size : Nat) (file : File) (offset orig : Int)
    (h0 : orig ≠ SEEK_SET) (h1 : orig ≠ SEEK_CUR) (h2 : orig ≠ SEEK_END) :
    shm_access_lseek mem_size file offset orig = (file, -EINVAL)
      ∧ (shm_access_lseek mem_size file offset orig).2 ≠ -EOVERFLOW
      ∧ (shm_access_lseek mem_size file offset orig).2 < 0
      ∧ (shm_access_lseek mem_size file offset orig).1.f_pos = file.f_pos := by
  rw [lseek_other_eq mem_size file offset orig h0 h1 h2]
  refine ⟨rfl, ?_, ?_, rfl⟩
  · show -EINVAL ≠ -EOVERFLOW
    decide
  · show -EINVAL < 0
    decide

theorem C9_invalid_origin_witness :
    shm_access_lseek 4096 ⟨10⟩ 5 3 = (⟨10⟩, -EINVAL)
      ∧ (shm_access_lseek 4096 ⟨10⟩ 5 3).2 ≠ -EOVERFLOW
      ∧ (shm_access_lseek 4096 ⟨10⟩ 5 3).2 < 0
      ∧ (shm_access_lseek 4096 ⟨10⟩ 5 3).1.f_pos = (⟨10⟩ : File).f_pos :=
  C9_invalid_origin 4096 ⟨10⟩ 5 3 (by decide) (by decide) (by decide)

/-- C10: for every session offset `o` and every signed delta `d` with `0 <= o + d < size`, a
seek by `d` from the current position succeeds, returns `o + d` and stores it as the session
offset; and for every `r` with `0 <= r < size`, a seek to `r` from the start succeeds, returns
`r` and stores it, whatever the current offset. -/
theorem C10_seek_cur_set (mem_size : Nat) (file : File)
    (hsz : mem_size < 9223372036854775808) :
    (∀ d : Int, 0 ≤ file.f_pos + d → file.f_pos + d < mem_size →
        shm_access_lseek mem_size file d SEEK_CUR
          = ({ f_pos := file.f_pos + d }, file.f_pos + d))
      ∧ (∀ r : Int, 0 ≤ r → r < mem_size →
        shm_access_lseek mem_size file r SEEK_SET = ({ f_pos := r }, r)) := by
  constructor
  · intro d h0 hlt
    rw [lseek_cur_eq, wrapS64_unsigned]
    have hc : d + file.f_pos = file.f_pos + d := by omega
    rw [hc]
    have : ¬ toU64 (file.f_pos + d) ≥ mem_size := by
      rw [toU64_of_range _ h0 (by omega)]; omega
    simp [this, wrapS64_of_range _ h0 (by omega)]
  · intro r h0 hlt
    rw [lseek_set_eq]
    have : ¬ toU64 r ≥ mem_size := by
      rw [toU64_of_range r h0 (by omega)]; omega
    simp [this]

theorem C10_seek_cur_set_witness :
    shm_access_lseek 4096 ⟨100⟩ (-40) SEEK_CUR = (⟨60⟩, 60)
      ∧ shm_access_lseek 4096 ⟨100⟩ 7 SEEK_SET = (⟨7⟩, 7) :=
  ⟨(C10_seek_cur_set 4096 ⟨100⟩ (by decide)).1 (-40) (by decide) (by decide),
   (C10_seek_cur_set 4096 ⟨100⟩ (by decide)).2 7 (by decide) (by decide)⟩

/-! ## read and write -/

theorem clamp_unsigned (mem_size p count : Nat) (hc : count < 18446744073709551616) :
    toU64 (clamp mem_size p count)
      = if (p + count) % 18446744073709551616 > mem_size then toU64 ((mem_size : Int) - (p : Int))
        else count := by
  unfold clamp
  split
  · exact toU64_toS64 _ (toU64_lt _)
  · exact toU64_toS64 _ hc

/-- Inside the window and without wrap-around the length is the remaining space or the
request, whichever is smaller. -/
theorem clamp_in_window (mem_size p count : Nat) (hsz : mem_size < 9223372036854775808)
    (hp : p ≤ mem_size) (hc : p + count < 18446744073709551616) :
    clamp mem_size p count = ((min count (mem_size - p) : Nat) : Int) := by
  unfold clamp
  have hmod : (p + count) % 18446744073709551616 = p + count := by omega
  rw [hmod]
  split
  · rw [toU64_of_range _ (by omega) (by omega), toS64_of_lt _ (by omega)]
    omega
  · rw [toS64_of_lt _ (by omega)]
    omega

/-- A request the caller's buffer can hold lies inside the window. -/
theorem clamp_of_fits (mem_size p count len : Nat) (hsz : mem_size < 9223372036854775808)
    (hp : p < 9223372036854775808) (hc : count < 18446744073709551616)
    (hlen : len < 9223372036854775808) (hfit : toU64 (clamp mem_size p count) ≤ len) :
    p ≤ mem_size ∧ p + count < 18446744073709551616 ∨
      p ≤ mem_size ∧ clamp mem_size p count = ((mem_size - p : Nat) : Int)
        ∧ mem_size - p ≤ count := by
  rw [clamp_unsigned mem_size p count hc] at hfit
  by_cases hw : (p + count) % 18446744073709551616 > mem_size
  · rw [if_pos hw] at hfit
    by_cases hps : p ≤ mem_size
    · right
      refine ⟨hps, ?_, ?_⟩
      · unfold clamp
        rw [if_pos hw, toU64_of_range _ (by omega) (by omega), toS64_of_lt _ (by omega)]
        omega
      · omega
    · exfalso
      rw [toU64_of_neg _ (by omega) (by omega)] at hfit
      omega
  · rw [if_neg hw] at hfit
    left
    omega

theorem copy_to_user_left (buf : List Nat) (io : Mem) (src n : Nat) :
    (copy_to_user buf io src n).2 = n - min n buf.length := rfl

theorem copy_to_user_take (buf : List Nat) (io : Mem) (src n : Nat) (h : n ≤ buf.length) :
    (copy_to_user buf io src n).1.take n = (List.range n).map (fun i => io (src + i)) := by
  unfold copy_to_user
  have hk : min n buf.length = n := by omega
  simp only [hk]
  rw [List.take_append_of_le_length (by simp)]
  rw [List.take_of_length_le (by simp)]

theorem copy_from_user_left (io : Mem) (dst : Nat) (buf : List Nat) (n : Nat) :
    (copy_from_user io dst buf n).2 = n - min n buf.length := rfl

theorem copy_from_user_outside (io : Mem) (dst : Nat) (buf : List Nat) (n a : Nat)
    (h : a < dst ∨ dst + n ≤ a) : (copy_from_user io dst buf n).1 a = io a := by
  unfold copy_from_user
  have : ¬ (dst ≤ a ∧ a < dst + min n buf.length) := by omega
  simp [this]

/-- For a mapping that lies inside the address space the address of window byte `p` is the
plain sum. -/
theorem window_addr_of_fits (l : shm_access_local) (p : Nat)
    (h : l.base_addr + p < 18446744073709551616) : window_addr l p = l.base_addr + p := by
  unfold window_addr
  omega

theorem window_addr_lt (l : shm_access_local) (p : Nat) :
    window_addr l p < 18446744073709551616 := by
  unfold window_addr
  omega

theorem read_unmapped (mem_size : Nat) (io : Mem) (buf : List Nat) (count : Nat) (ppos : Int) :
    shm_access_read mem_size none io buf count ppos
      = { ret := -EFAULT, ppos := ppos, io := io, buf := buf, call := none } := rfl

theorem write_unmapped (mem_size : Nat) (io : Mem) (buf : List Nat) (count : Nat) (ppos : Int) :
    shm_access_write mem_size none io buf count ppos
      = { ret := -EFAULT, ppos := ppos, io := io, buf := buf, call := none } := rfl

theorem read_copy_ok (mem_size : Nat) (l : shm_access_local) (io : Mem) (buf : List Nat)
    (count : Nat) (ppos : Int)
    (h : (copy_to_user buf io (window_addr l (toU64 ppos))
            (toU64 (clamp mem_size (toU64 ppos) count))).2 = 0) :
    shm_access_read mem_size (some l) io buf count ppos
      = { ret := clamp mem_size (toU64 ppos) count,
          ppos := toS64 ((toU64 ppos + toU64 (clamp mem_size (toU64 ppos) count))
                    % 18446744073709551616),
          io := io,
          buf := (copy_to_user buf io (window_addr l (toU64 ppos))
                    (toU64 (clamp mem_size (toU64 ppos) count))).1,
          call := some (toU64 ppos, toU64 (clamp mem_size (toU64 ppos) count)) } := by
  unfold shm_access_read
  simp [h]

theorem read_copy_fail (mem_size : Nat) (l : shm_access_local) (io : Mem) (buf : List Nat)
    (count : Nat) (ppos : Int)
    (h : (copy_to_user buf io (window_addr l (toU64 ppos))
            (toU64 (clamp mem_size (toU64 ppos) count))).2 ≠ 0) :
    shm_access_read mem_size (some l) io buf count ppos
      = { ret := -EFAULT, ppos := ppos, io := io,
          buf := (copy_to_user buf io (window_addr l (toU64 ppos))
                    (toU64 (clamp mem_size (toU64 ppos) count))).1,
          call := some (toU64 ppos, toU64 (clamp mem_size (toU64 ppos) count)) } := by
  unfold shm_access_read
  simp [h]

theorem write_copy_ok (mem_size : Nat) (l : shm_access_local) (io : Mem) (buf : List Nat)
    (count : Nat) (ppos : Int)
    (h : (copy_from_user io (window_addr l (toU64 ppos)) buf
            (toU64 (clamp mem_size (toU64 ppos) count))).2 = 0) :
    shm_access_write mem_size (some l) io buf count ppos
      = { ret := clamp mem_size (toU64 ppos) count,
          ppos := toS64 ((toU64 ppos + toU64 (clamp mem_size (toU64 ppos) count))
                    % 18446744073709551616),
          io := (copy_from_user io (window_addr l (toU64 ppos)) buf
                    (toU64 (clamp mem_size (toU64 ppos) count))).1,
          buf := buf,
          call := some (toU64 ppos, toU64 (clamp mem_size (toU64 ppos) count)) } := by
  unfold shm_access_write
  simp [h]

theorem write_copy_fail (mem_size : Nat) (l : shm_access_local) (io : Mem) (buf : List Nat)
    (count : Nat) (ppos : Int)
    (h : (copy_from_user io (window_addr l (toU64 ppos)) buf
            (toU64 (clamp mem_size (toU64 ppos) count))).2 ≠ 0) :
    shm_access_write mem_size (some l) io buf count ppos
      = { ret := -EFAULT, ppos := ppos,
          io := (copy_from_user io (window_addr l (toU64 ppos)) buf
                    (toU64 (clamp mem_size (toU64 ppos) count))).1,
          buf := buf,
          call := some (toU64 ppos, toU64 (clamp mem_size (toU64 ppos) count)) } := by
  unfold shm_access_write
  simp [h]

/-- C3: for every session offset `p` and every requested length, a read on a mapped window
whose copy-out succeeds hands exactly `min(length, size - p)` bytes at window offset `p` to
the copy primitive, delivers those window bytes to the caller, returns that count and advances
the session offset by exactly that count. -/
theorem C3_read_clamped (mem_size : Nat) (l : shm_access_local) (io : Mem) (buf : List Nat)
    (count : Nat) (ppos : Int)
    (hsz : mem_size < 9223372036854775808) (hbuf : buf.length < 9223372036854775808)
    (hcount : count < 18446744073709551616) (hp0 : 0 ≤ ppos) (hp1 : ppos < 9223372036854775808)
    (hcopy : (copy_to_user buf io (window_addr l (toU64 ppos))
                (toU64 (clamp mem_size (toU64 ppos) count))).2 = 0) :
    0 ≤ min (count : Int) ((mem_size : Int) - ppos)
      ∧ (shm_access_read mem_size (some l) io buf count ppos).ret
          = min (count : Int) ((mem_size : Int) - ppos)
      ∧ (shm_access_read mem_size (some l) io buf count ppos).ppos
          = ppos + min (count : Int) ((mem_size : Int) - ppos)
      ∧ (shm_access_read mem_size (some l) io buf count ppos).call
          = some (ppos.toNat, (min (count : Int) ((mem_size : Int) - ppos)).toNat)
      ∧ (shm_access_read mem_size (some l) io buf count ppos).buf.take
            (min (count : Int) ((mem_size : Int) - ppos)).toNat
          = (List.range (min (count : Int) ((mem_size : Int) - ppos)).toNat).map
              (fun i => io (window_addr l ppos.toNat + i)) := by
  rw [read_copy_ok mem_size l io buf count ppos hcopy]
  have hpu : toU64 ppos = ppos.toNat := toU64_of_range ppos hp0 (by omega)
  rw [copy_to_user_left] at hcopy
  have hfit : toU64 (clamp mem_size (toU64 ppos) count) ≤ buf.length := by omega
  rw [hpu] at hfit ⊢
  have hps : ppos.toNat ≤ mem_size ∧
      clamp mem_size ppos.toNat count = ((min count (mem_size - ppos.toNat) : Nat) : Int) := by
    rcases clamp_of_fits mem_size ppos.toNat count buf.length hsz (by omega) hcount hbuf hfit
      with ⟨h1, h2⟩ | ⟨h1, h2, h3⟩
    · exact ⟨h1, clamp_in_window mem_size ppos.toNat count hsz h1 h2⟩
    · refine ⟨h1, ?_⟩
      rw [h2]; congr 1; omega
  obtain ⟨hle, hcl⟩ := hps
  have hm : min (count : Int) ((mem_size : Int) - ppos)
      = ((min count (mem_size - ppos.toNat) : Nat) : Int) := by omega
  have hu : toU64 ((min count (mem_size - ppos.toNat) : Nat) : Int)
      = min count (mem_size - ppos.toNat) := toU64_cast _ (by omega)
  rw [hcl, hu] at hfit
  rw [hm, hcl, hu]
  simp only [Int.toNat_ofNat]
  refine ⟨by omega, trivial, ?_, trivial, ?_⟩
  · have hmod : (ppos.toNat + min count (mem_size - ppos.toNat)) % 18446744073709551616
        = ppos.toNat + min count (mem_size - ppos.toNat) := by omega
    rw [hmod, toS64_of_lt _ (by omega)]
    omega
  · rw [copy_to_user_take buf io _ _ hfit]

theorem C3_read_clamped_witness :
    (shm_access_read 4096 (some ⟨0, 4095, 0⟩) (fun a => a % 256) (List.replicate 100 0)
          100 4086).ret = 10
      ∧ (shm_access_read 4096 (some ⟨0, 4095, 0⟩) (fun a => a % 256) (List.replicate 100 0)
          100 4086).ppos = 4096
      ∧ (shm_access_read 4096 (some ⟨0, 4095, 0⟩) (fun a => a % 256) (List.replicate 100 0)
          100 4086).call = some (4086, 10)
      ∧ (shm_access_read 4096 (some ⟨0, 4095, 0⟩) (fun a => a % 256) (List.replicate 100 0)
          100 4086).buf.take 10 = [246, 247, 248, 249, 250, 251, 252, 253, 254, 255] :=
  (C3_read_clamped 4096 ⟨0, 4095, 0⟩ (fun a => a % 256) (List.replicate 100 0) 100 4086
    (by decide) (by decide) (by decide) (by decide) (by decide) (by decide)).2

theorem read_call (mem_size : Nat) (l : shm_access_local) (io : Mem) (buf : List Nat)
    (count : Nat) (ppos : Int) :
    (shm_access_read mem_size (some l) io buf count ppos).call
      = some (toU64 ppos, toU64 (clamp mem_size (toU64 ppos) count)) := by
  unfold shm_access_read
  simp only
  split <;> rfl

theorem write_call (mem_size : Nat) (l : shm_access_local) (io : Mem) (buf : List Nat)
    (count : Nat) (ppos : Int) :
    (shm_access_write mem_size (some l) io buf count ppos).call
      = some (toU64 ppos, toU64 (clamp mem_size (toU64 ppos) count)) := by
  unfold shm_access_write
  simp only
  split <;> rfl

/-- C4 (the code at the failing inputs): with size `0x10000000`, a read or a write of one
byte at offset `0x10000001` hands the copy primitive `2^64 - 1` bytes at window offset
`0x10000001`, and a read or a write of `2^64 - 8` bytes at offset `16` hands it `2^64 - 8`
bytes at window offset `16`; in each case the range ends beyond the window. -/
theorem C4_out_of_window (l : shm_access_local) (io : Mem) (buf : List Nat) :
    (shm_access_read 0x10000000 (some l) io buf 1 0x10000001).call
        = some (0x10000001, 18446744073709551615)
      ∧ (shm_access_write 0x10000000 (some l) io buf 1 0x10000001).call
        = some (0x10000001, 18446744073709551615)
      ∧ ¬ (0x10000001 + 18446744073709551615 ≤ 0x10000000)
      ∧ (shm_access_read 0x10000000 (some l) io buf 18446744073709551608 16).call
        = some (16, 18446744073709551608)
      ∧ (shm_access_write 0x10000000 (some l) io buf 18446744073709551608 16).call
        = some (16, 18446744073709551608)
      ∧ ¬ (16 + 18446744073709551608 ≤ 0x10000000) := by
  rw [read_call, write_call, read_call, write_call]
  decide

/-- C8 (the code at the failing input): with size `0x10000000`, a one-byte read at offset
`0x10000001` on a mapped window returns `-EFAULT` or `-1`, never zero; with a one-byte
buffer it returns `-EFAULT`. -/
theorem C8_read_past_end (l : shm_access_local) (io : Mem) (buf : List Nat) :
    ((shm_access_read 0x10000000 (some l) io buf 1 0x10000001).ret = -EFAULT
        ∨ (shm_access_read 0x10000000 (some l) io buf 1 0x10000001).ret = -1)
      ∧ (shm_access_read 0x10000000 (some l) io buf 1 0x10000001).ret ≠ 0
      ∧ (shm_access_read 0x10000000 (some l) io [0] 1 0x10000001).ret = -EFAULT := by
  have hc : clamp 0x10000000 (toU64 0x10000001) 1 = -1 := by decide
  have hret : (shm_access_read 0x10000000 (some l) io buf 1 0x10000001).ret = -EFAULT
      ∨ (shm_access_read 0x10000000 (some l) io buf 1 0x10000001).ret = -1 := by
    by_cases h : (copy_to_user buf io (window_addr l (toU64 0x10000001))
        (toU64 (clamp 0x10000000 (toU64 0x10000001) 1))).2 = 0
    · right
      rw [read_copy_ok _ _ _ _ _ _ h]
      exact hc
    · left
      rw [read_copy_fail _ _ _ _ _ _ h]
  refine ⟨hret, ?_, ?_⟩
  · rcases hret with h | h <;> rw [h] <;> decide
  · have h : (copy_to_user [0] io (window_addr l (toU64 0x10000001))
        (toU64 (clamp 0x10000000 (toU64 0x10000001) 1))).2 ≠ 0 := by
      rw [copy_to_user_left]
      decide
    rw [read_copy_fail _ _ _ _ _ _ h]

/-- The pointer `lp->base_addr + p` wraps at 64 bits: with base address 100, a write at file
position `-1` whose copy-in fails after one byte has stored that byte at address 99. -/
theorem write_pointer_wraps :
    (shm_access_write 4096 (some ⟨0, 4095, 100⟩) (fun _ => 0) [5] 2 (-1)).ret = -EFAULT
      ∧ (shm_access_write 4096 (some ⟨0, 4095, 100⟩) (fun _ => 0) [5] 2 (-1)).call
          = some (18446744073709551615, 2)
      ∧ (shm_access_write 4096 (some ⟨0, 4095, 100⟩) (fun _ => 0) [5] 2 (-1)).io 99 = 5 := by
  decide

/-- C7 (counterexample): a write of four bytes from a caller's buffer of which only two
bytes are accessible fails with `-EFAULT` after the copy primitive has stored the first byte
`7` at window offset `0`, which held `0` before. -/
theorem C7_counterexample :
    (copy_from_user (fun _ => 0) (window_addr ⟨0, 4095, 0⟩ (toU64 0)) [7, 9]
        (toU64 (clamp 4096 (toU64 0) 4))).2 ≠ 0
      ∧ (shm_access_write 4096 (some ⟨0, 4095, 0⟩) (fun _ => 0) [7, 9] 4 0).ret = -EFAULT
      ∧ (shm_access_write 4096 (some ⟨0, 4095, 0⟩) (fun _ => 0) [7, 9] 4 0).ppos = 0
      ∧ (shm_access_write 4096 (some ⟨0, 4095, 0⟩) (fun _ => 0) [7, 9] 4 0).io 0 = 7
      ∧ (fun _ => 0 : Mem) 0 = 0 := by
  decide

/-- C7 (amended): for every session offset and every length, read and write fail with
`-EFAULT` when the window is not mapped and when the copy to or from the caller's buffer
fails, and in both cases leave the session offset unchanged; kernel memory is unchanged by a
failed read and by a write on an unmapped window, and a write whose copy-in fails changes no
byte outside the range it handed to the copy primitive (the `n` addresses from
`lp->base_addr + p` on, taken in 64-bit pointer arithmetic). -/
theorem C7_fault (mem_size : Nat) (io : Mem) (buf : List Nat) (count : Nat) (ppos : Int) :
    ((shm_access_read mem_size none io buf count ppos).ret = -EFAULT
        ∧ (shm_access_read mem_size none io buf count ppos).ppos = ppos
        ∧ (shm_access_read mem_size none io buf count ppos).io = io)
      ∧ ((shm_access_write mem_size none io buf count ppos).ret = -EFAULT
        ∧ (shm_access_write mem_size none io buf count ppos).ppos = ppos
        ∧ (shm_access_write mem_size none io buf count ppos).io = io)
      ∧ (∀ l : shm_access_local,
          (copy_to_user buf io (window_addr l (toU64 ppos))
              (toU64 (clamp mem_size (toU64 ppos) count))).2 ≠ 0 →
          (shm_access_read mem_size (some l) io buf count ppos).ret = -EFAULT
            ∧ (shm_access_read mem_size (some l) io buf count ppos).ppos = ppos
            ∧ (shm_access_read mem_size (some l) io buf count ppos).io = io)
      ∧ (∀ l : shm_access_local,
          (copy_from_user io (window_addr l (toU64 ppos)) buf
              (toU64 (clamp mem_size (toU64 ppos) count))).2 ≠ 0 →
          (shm_access_write mem_size (some l) io buf count ppos).ret = -EFAULT
            ∧ (shm_access_write mem_size (some l) io buf count ppos).ppos = ppos
            ∧ ∀ a : Nat, a < 18446744073709551616 →
                (∀ i : Nat, i < toU64 (clamp mem_size (toU64 ppos) count) →
                    (window_addr l (toU64 ppos) + i) % 18446744073709551616 ≠ a) →
                (shm_access_write mem_size (some l) io buf count ppos).io a = io a) := by
  refine ⟨⟨rfl, rfl, rfl⟩, ⟨rfl, rfl, rfl⟩, ?_, ?_⟩
  · intro l h
    rw [read_copy_fail mem_size l io buf count ppos h]
    exact ⟨rfl, rfl, rfl⟩
  · intro l h
    rw [write_copy_fail mem_size l io buf count ppos h]
    refine ⟨rfl, rfl, ?_⟩
    intro a ha hout
    apply copy_from_user_outside io _ buf _ a
    by_contra hin
    have hlo : window_addr l (toU64 ppos) ≤ a := by omega
    have hi : a - window_addr l (toU64 ppos) < toU64 (clamp mem_size (toU64 ppos) count) := by
      omega
    apply hout (a - window_addr l (toU64 ppos)) hi
    have hsum : window_addr l (toU64 ppos) + (a - window_addr l (toU64 ppos)) = a := by omega
    rw [hsum]
    exact Nat.mod_eq_of_lt ha

theorem C7_fault_witness :
    (shm_access_read 4096 (some ⟨0, 4095, 0⟩) (fun _ => 0) [7, 9] 4 0).ret = -EFAULT
      ∧ (shm_access_read 4096 (some ⟨0, 4095, 0⟩) (fun _ => 0) [7, 9] 4 0).ppos = 0
      ∧ (shm_access_write 4096 (some ⟨0, 4095, 0⟩) (fun _ => 0) [7, 9] 4 0).ret = -EFAULT
      ∧ (shm_access_write 4096 (some ⟨0, 4095, 0⟩) (fun _ => 0) [7, 9] 4 0).ppos = 0
      ∧ (shm_access_write 4096 none (fun _ => 0) [7, 9] 4 0).ret = -EFAULT :=
  ⟨((C7_fault 4096 (fun _ => 0) [7, 9] 4 0).2.2.1 ⟨0, 4095, 0⟩ (by decide)).1,
   ((C7_fault 4096 (fun _ => 0) [7, 9] 4 0).2.2.1 ⟨0, 4095, 0⟩ (by decide)).2.1,
   ((C7_fault 4096 (fun _ => 0) [7, 9] 4 0).2.2.2 ⟨0, 4095, 0⟩ (by decide)).1,
   ((C7_fault 4096 (fun _ => 0) [7, 9] 4 0).2.2.2 ⟨0, 4095, 0⟩ (by decide)).2.1,
   (C7_fault 4096 (fun _ => 0) [7, 9] 4 0).2.1.1⟩

/-! ## map -/

/-- C5 (counterexample): with a zero page offset and a length within the window, the map call
fails with `-EAGAIN` when the kernel's remap primitive fails; and with the base address
`0x40000800` and 4 KiB pages a successful mapping starts at physical `0x40000000`, not at the
base address. -/
theorem C5_counterexample :
    (⟨0x7000, 0x8000, 0, 0, false⟩ : Vma).vm_pgoff = 0
      ∧ toU64 (((⟨0x7000, 0x8000, 0, 0, false⟩ : Vma).vm_end : Int)
          - ((⟨0x7000, 0x8000, 0, 0, false⟩ : Vma).vm_start : Int)) ≤ 0x10000000
      ∧ (shm_access_mmap 0x40000000 0x10000000 12 (fun _ => -ENOMEM) ⟨0⟩
          ⟨0x7000, 0x8000, 0, 0, false⟩).ret = -EAGAIN
      ∧ (shm_access_mmap 0x40000000 0x10000000 12 (fun _ => -ENOMEM) ⟨0⟩
          ⟨0x7000, 0x8000, 0, 0, false⟩).mapped = none
      ∧ ((shm_access_mmap 0x40000800 0x10000000 12 (fun _ => 0) ⟨0⟩
          ⟨0x7000, 0x8000, 0, 0, false⟩).mapped.map (Remap.phys 12)) = some 0x40000000 := by
  decide

/-- C5 (amended): for every requested length and page offset, map fails with `-EINVAL` if the
page offset is not zero or if the length exceeds the size; otherwise it asks the kernel to
remap `length` bytes from page frame `base_address >> PAGE_SHIFT` and fails with `-EAGAIN`
when that remap fails; when the remap succeeds it succeeds, and the mapping covers exactly
the physical range starting at `base_address` of `length` bytes when the base address is
page-aligned. In every case the result does not depend on the session's offset and the
session is unchanged. -/
theorem C5_map (mem_start mem_size page_shift : Nat) (io_remap_pfn_range : Remap → Int)
    (file : File) (vma : Vma) :
    (vma.vm_pgoff ≠ 0 ∨ vma.length > mem_size →
        (shm_access_mmap mem_start mem_size page_shift io_remap_pfn_range file vma).ret = -EINVAL
          ∧ (shm_access_mmap mem_start mem_size page_shift io_remap_pfn_range file vma).mapped
              = none)
      ∧ (vma.vm_pgoff = 0 → vma.length ≤ mem_size →
          io_remap_pfn_range (vma.request mem_start page_shift) ≠ 0 →
        (shm_access_mmap mem_start mem_size page_shift io_remap_pfn_range file vma).ret = -EAGAIN
          ∧ (shm_access_mmap mem_start mem_size page_shift io_remap_pfn_range file vma).mapped
              = none)
      ∧ (vma.vm_pgoff = 0 → vma.length ≤ mem_size →
          io_remap_pfn_range (vma.request mem_start page_shift) = 0 →
        (shm_access_mmap mem_start mem_size page_shift io_remap_pfn_range file vma).ret = 0
          ∧ (shm_access_mmap mem_start mem_size page_shift io_remap_pfn_range file vma).mapped
              = some (vma.request mem_start page_shift)
          ∧ (vma.request mem_start page_shift).size = vma.length
          ∧ (mem_start % 2 ^ page_shift = 0 →
              (vma.request mem_start page_shift).phys page_shift = mem_start))
      ∧ (shm_access_mmap mem_start mem_size page_shift io_remap_pfn_range file vma).file = file
      ∧ ∀ other : File,
          (shm_access_mmap mem_start mem_size page_shift io_remap_pfn_range other vma).ret
              = (shm_access_mmap mem_start mem_size page_shift io_remap_pfn_range file vma).ret
            ∧ (shm_access_mmap mem_start mem_size page_shift io_remap_pfn_range other vma).mapped
              = (shm_access_mmap mem_start mem_size page_shift io_remap_pfn_range file vma).mapped
            ∧ (shm_access_mmap mem_start mem_size page_shift io_remap_pfn_range other vma).vma
              = (shm_access_mmap mem_start mem_size page_shift io_remap_pfn_range file vma).vma := by
  refine ⟨?_, ?_, ?_, ?_, ?_⟩
  · intro h
    unfold shm_access_mmap
    by_cases hpg : vma.vm_pgoff = 0
    · have hl : vma.length > mem_size := by
        rcases h with h | h
        · exact absurd hpg h
        · exact h
      unfold Vma.length at hl
      simp [hpg, hl]
    · simp [hpg]
  · intro hpg hl hr
    unfold Vma.request Vma.length at hr
    unfold Vma.length at hl
    unfold shm_access_mmap
    simp [hpg, Nat.not_lt.mpr hl, hr]
  · intro hpg hl hr
    refine ⟨?_, ?_, rfl, ?_⟩
    · unfold Vma.request Vma.length at hr
      unfold Vma.length at hl
      unfold shm_access_mmap
      simp [hpg, Nat.not_lt.mpr hl, hr]
    · unfold Vma.request Vma.length at hr
      unfold Vma.length at hl
      unfold shm_access_mmap Vma.request Vma.length
      simp [hpg, Nat.not_lt.mpr hl, hr]
    · intro hal
      unfold Vma.request Remap.phys
      simp only
      exact Nat.div_mul_cancel (Nat.dvd_of_mod_eq_zero hal)
  · unfold shm_access_mmap
    simp only
    split
    · rfl
    · split
      · rfl
      · split <;> rfl
  · intro other
    unfold shm_access_mmap
    simp only
    split
    · exact ⟨rfl, rfl, rfl⟩
    · split
      · exact ⟨rfl, rfl, rfl⟩
      · split <;> exact ⟨rfl, rfl, rfl⟩

theorem C5_map_witness :
    ((shm_access_mmap 0x40000000 0x10000000 12 (fun _ => 0) ⟨0⟩
          ⟨0x7000, 0x8000, 1, 0, false⟩).ret = -EINVAL)
      ∧ ((shm_access_mmap 0x40000000 0x10000000 12 (fun _ => 0) ⟨0⟩
          ⟨0x7000, 0x20007000, 0, 0, false⟩).ret = -EINVAL)
      ∧ ((shm_access_mmap 0x40000000 0x10000000 12 (fun _ => -ENOMEM) ⟨0⟩
          ⟨0x7000, 0x8000, 0, 0, false⟩).ret = -EAGAIN)
      ∧ ((shm_access_mmap 0x40000000 0x10000000 12 (fun _ => 0) ⟨5⟩
          ⟨0x7000, 0x8000, 0, 0, false⟩).mapped
            = some ((⟨0x7000, 0x8000, 0, 0, false⟩ : Vma).request 0x40000000 12))
      ∧ ((⟨0x7000, 0x8000, 0, 0, false⟩ : Vma).request 0x40000000 12).phys 12 = 0x40000000 :=
  ⟨((C5_map 0x40000000 0x10000000 12 (fun _ => 0) ⟨0⟩ ⟨0x7000, 0x8000, 1, 0, false⟩).1
      (Or.inl (by decide))).1,
   ((C5_map 0x40000000 0x10000000 12 (fun _ => 0) ⟨0⟩ ⟨0x7000, 0x20007000, 0, 0, false⟩).1
      (Or.inr (by decide))).1,
   ((C5_map 0x40000000 0x10000000 12 (fun _ => -ENOMEM) ⟨0⟩ ⟨0x7000, 0x8000, 0, 0, false⟩).2.1
      (by decide) (by decide) (by decide)).1,
   ((C5_map 0x40000000 0x10000000 12 (fun _ => 0) ⟨5⟩ ⟨0x7000, 0x8000, 0, 0, false⟩).2.2.1
      (by decide) (by decide) (by decide)).2.1,
   ((C5_map 0x40000000 0x10000000 12 (fun _ => 0) ⟨5⟩ ⟨0x7000, 0x8000, 0, 0, false⟩).2.2.1
      (by decide) (by decide) (by decide)).2.2.2 (by decide)⟩

/-! ## seek, read and write together -/

/-- What a transfer whose request fits the caller's buffer returns and where it leaves the
file position. -/
theorem clamp_fit_values (mem_size count len : Nat) (ppos : Int)
    (hsz : mem_size < 9223372036854775808) (hlen : len < 9223372036854775808)
    (hcount : count < 18446744073709551616) (hp0 : 0 ≤ ppos) (hp1 : ppos < 9223372036854775808)
    (hfit : toU64 (clamp mem_size (toU64 ppos) count) ≤ len) :
    0 ≤ min (count : Int) ((mem_size : Int) - ppos)
      ∧ clamp mem_size (toU64 ppos) count = min (count : Int) ((mem_size : Int) - ppos)
      ∧ toS64 ((toU64 ppos + toU64 (clamp mem_size (toU64 ppos) count)) % 18446744073709551616)
          = ppos + min (count : Int) ((mem_size : Int) - ppos) := by
  have hpu : toU64 ppos = ppos.toNat := toU64_of_range ppos hp0 (by omega)
  rw [hpu] at hfit ⊢
  have hps : ppos.toNat ≤ mem_size ∧
      clamp mem_size ppos.toNat count = ((min count (mem_size - ppos.toNat) : Nat) : Int) := by
    rcases clamp_of_fits mem_size ppos.toNat count len hsz (by omega) hcount hlen hfit
      with ⟨h1, h2⟩ | ⟨h1, h2, h3⟩
    · exact ⟨h1, clamp_in_window mem_size ppos.toNat count hsz h1 h2⟩
    · refine ⟨h1, ?_⟩
      rw [h2]; congr 1; omega
  obtain ⟨hle, hcl⟩ := hps
  have hm : min (count : Int) ((mem_size : Int) - ppos)
      = ((min count (mem_size - ppos.toNat) : Nat) : Int) := by omega
  have hu : toU64 ((min count (mem_size - ppos.toNat) : Nat) : Int)
      = min count (mem_size - ppos.toNat) := toU64_cast _ (by omega)
  rw [hm, hcl, hu]
  refine ⟨by omega, rfl, ?_⟩
  have hmod : (ppos.toNat + min count (mem_size - ppos.toNat)) % 18446744073709551616
      = ppos.toNat + min count (mem_size - ppos.toNat) := by omega
  rw [hmod, toS64_of_lt _ (by omega)]
  omega

/-- C12: write is symmetric to read. For every window state (mapped or not), every session
offset `p` and every length `n`, a write of `n` bytes at `p` and a read of `n` bytes at `p`
(with caller buffers of the same size) return the same result and leave the same new offset:
either both fail with `-EFAULT` and keep the offset, or both return `min(n, size - p)` and
advance the offset by it. -/
theorem C12_write_read_symmetric (mem_size : Nat) (lp : Option shm_access_local) (io : Mem)
    (wbuf rbuf : List Nat) (count : Nat) (ppos : Int)
    (hsz : mem_size < 9223372036854775808) (hsame : wbuf.length = rbuf.length)
    (hbuf : rbuf.length < 9223372036854775808) (hcount : count < 18446744073709551616)
    (hp0 : 0 ≤ ppos) (hp1 : ppos < 9223372036854775808) :
    (shm_access_write mem_size lp io wbuf count ppos).ret
        = (shm_access_read mem_size lp io rbuf count ppos).ret
      ∧ (shm_access_write mem_size lp io wbuf count ppos).ppos
        = (shm_access_read mem_size lp io rbuf count ppos).ppos
      ∧ (shm_access_write mem_size lp io wbuf count ppos).call
        = (shm_access_read mem_size lp io rbuf count ppos).call
      ∧ (((shm_access_read mem_size lp io rbuf count ppos).ret = -EFAULT
            ∧ (shm_access_read mem_size lp io rbuf count ppos).ppos = ppos)
          ∨ (0 ≤ min (count : Int) ((mem_size : Int) - ppos)
            ∧ (shm_access_read mem_size lp io rbuf count ppos).ret
                = min (count : Int) ((mem_size : Int) - ppos)
            ∧ (shm_access_read mem_size lp io rbuf count ppos).ppos
                = ppos + min (count : Int) ((mem_size : Int) - ppos))) := by
  cases lp with
  | none =>
    rw [read_unmapped, write_unmapped]
    exact ⟨rfl, rfl, rfl, Or.inl ⟨rfl, rfl⟩⟩
  | some l =>
    by_cases hfit : toU64 (clamp mem_size (toU64 ppos) count) ≤ rbuf.length
    · have hr : (copy_to_user rbuf io (window_addr l (toU64 ppos))
          (toU64 (clamp mem_size (toU64 ppos) count))).2 = 0 := by
        rw [copy_to_user_left]; omega
      have hw : (copy_from_user io (window_addr l (toU64 ppos)) wbuf
          (toU64 (clamp mem_size (toU64 ppos) count))).2 = 0 := by
        rw [copy_from_user_left]; omega
      rw [read_copy_ok mem_size l io rbuf count ppos hr,
        write_copy_ok mem_size l io wbuf count ppos hw]
      obtain ⟨h0, h1, h2⟩ :=
        clamp_fit_values mem_size count rbuf.length ppos hsz hbuf hcount hp0 hp1 hfit
      exact ⟨rfl, rfl, rfl, Or.inr ⟨h0, h1, h2⟩⟩
    · have hr : (copy_to_user rbuf io (window_addr l (toU64 ppos))
          (toU64 (clamp mem_size (toU64 ppos) count))).2 ≠ 0 := by
        rw [copy_to_user_left]; omega
      have hw : (copy_from_user io (window_addr l (toU64 ppos)) wbuf
          (toU64 (clamp mem_size (toU64 ppos) count))).2 ≠ 0 := by
        rw [copy_from_user_left]; omega
      rw [read_copy_fail mem_size l io rbuf count ppos hr,
        write_copy_fail mem_size l io wbuf count ppos hw]
      exact ⟨rfl, rfl, rfl, Or.inl ⟨rfl, rfl⟩⟩

theorem C12_write_read_symmetric_witness :
    (shm_access_write 4096 (some ⟨0, 4095, 100⟩) (fun _ => 0) [1, 2, 3, 4] 4 4094).ret
        = (shm_access_read 4096 (some ⟨0, 4095, 100⟩) (fun _ => 0) [0, 0, 0, 0] 4 4094).ret
      ∧ (shm_access_write 4096 (some ⟨0, 4095, 100⟩) (fun _ => 0) [1, 2, 3, 4] 4 4094).ppos
        = (shm_access_read 4096 (some ⟨0, 4095, 100⟩) (fun _ => 0) [0, 0, 0, 0] 4 4094).ppos
      ∧ (shm_access_write 4096 (some ⟨0, 4095, 100⟩) (fun _ => 0) [1, 2, 3, 4] 4 4094).call
        = (shm_access_read 4096 (some ⟨0, 4095, 100⟩) (fun _ => 0) [0, 0, 0, 0] 4 4094).call
      ∧ (((shm_access_read 4096 (some ⟨0, 4095, 100⟩) (fun _ => 0) [0, 0, 0, 0] 4 4094).ret
              = -EFAULT
            ∧ (shm_access_read 4096 (some ⟨0, 4095, 100⟩) (fun _ => 0) [0, 0, 0, 0] 4 4094).ppos
              = 4094)
          ∨ ((0 : Int) ≤ 2
            ∧ (shm_access_read 4096 (some ⟨0, 4095, 100⟩) (fun _ => 0) [0, 0, 0, 0] 4 4094).ret
                = 2
            ∧ (shm_access_read 4096 (some ⟨0, 4095, 100⟩) (fun _ => 0) [0, 0, 0, 0] 4 4094).ppos
                = 4094 + 2)) :=
  C12_write_read_symmetric 4096 (some ⟨0, 4095, 100⟩) (fun _ => 0) [1, 2, 3, 4] [0, 0, 0, 0] 4 4094
    (by decide) (by decide) (by decide) (by decide) (by decide) (by decide)

/-- C18: for every seek whose computed target is negative as a signed 64-bit value, the seek
fails with `-EOVERFLOW` and leaves the session offset unchanged; this covers a seek from the
start to a negative offset, a seek from the current position by a delta below minus the
session offset, and a seek from the end with a requested offset above the size. -/
theorem C18_negative_target (mem_size : Nat) (file : File) (offset orig : Int)
    (hsz : mem_size < 9223372036854775808) (ho : InS64 offset)
    (horig : orig = SEEK_SET ∨ orig = SEEK_CUR ∨ orig = SEEK_END) :
    (wrapS64 (spec_new_offset mem_size file offset orig) < 0 →
        shm_access_lseek mem_size file offset orig = (file, -EOVERFLOW))
      ∧ (offset < 0 → shm_access_lseek mem_size file offset SEEK_SET = (file, -EOVERFLOW))
      ∧ (0 ≤ file.f_pos → offset < -file.f_pos →
          shm_access_lseek mem_size file offset SEEK_CUR = (file, -EOVERFLOW))
      ∧ ((mem_size : Int) < offset →
          shm_access_lseek mem_size file offset SEEK_END = (file, -EOVERFLOW)) := by
  obtain ⟨ho0, ho1⟩ := ho
  have hneg : ∀ i : Int, wrapS64 i < 0 → toU64 i ≥ mem_size := by
    intro i hi
    have hlt := toU64_lt i
    by_cases hs : toU64 i < 9223372036854775808
    · unfold wrapS64 at hi
      rw [toS64_of_lt _ hs] at hi
      omega
    · omega
  refine ⟨?_, ?_, ?_, ?_⟩
  · intro h
    rcases horig with e | e | e
    · subst e
      have ht : spec_new_offset mem_size file offset SEEK_SET = offset := by
        simp [spec_new_offset]
      rw [ht] at h
      rw [lseek_set_eq]
      simp [hneg offset h]
    · subst e
      have ht : spec_new_offset mem_size file offset SEEK_CUR = file.f_pos + offset := by
        simp [spec_new_offset, SEEK_CUR, SEEK_SET]
      rw [ht] at h
      have hc : offset + file.f_pos = file.f_pos + offset := by omega
      rw [lseek_cur_eq, wrapS64_unsigned, hc]
      simp [hneg _ h]
    · subst e
      have ht : spec_new_offset mem_size file offset SEEK_END = (mem_size : Int) - offset := by
        simp [spec_new_offset, SEEK_CUR, SEEK_SET, SEEK_END]
      rw [ht] at h
      rw [lseek_end_eq, toU64_toS64 _ (toU64_lt _)]
      simp [hneg _ h]
  · intro h
    rw [lseek_set_eq]
    have : toU64 offset ≥ mem_size := by
      rw [toU64_of_neg offset (by omega) h]; omega
    simp [this]
  · intro hp h
    have hc : offset + file.f_pos = file.f_pos + offset := by omega
    rw [lseek_cur_eq, wrapS64_unsigned, hc]
    have : toU64 (file.f_pos + offset) ≥ mem_size := by
      rw [toU64_of_neg _ (by omega) (by omega)]; omega
    simp [this]
  · intro h
    rw [lseek_end_eq, toU64_toS64 _ (toU64_lt _)]
    have : toU64 ((mem_size : Int) - offset) ≥ mem_size := by
      rw [toU64_of_neg _ (by omega) (by omega)]; omega
    simp [this]

theorem C18_negative_target_witness :
    shm_access_lseek 4096 ⟨10⟩ (-11) SEEK_CUR = (⟨10⟩, -EOVERFLOW)
      ∧ shm_access_lseek 4096 ⟨10⟩ (-11) SEEK_SET = (⟨10⟩, -EOVERFLOW)
      ∧ shm_access_lseek 4096 ⟨10⟩ 4097 SEEK_END = (⟨10⟩, -EOVERFLOW) :=
  ⟨(C18_negative_target 4096 ⟨10⟩ (-11) SEEK_CUR (by decide) (by decide) (by decide)).1
      (by decide),
   (C18_negative_target 4096 ⟨10⟩ (-11) SEEK_CUR (by decide) (by decide) (by decide)).2.1
      (by decide),
   (C18_negative_target 4096 ⟨10⟩ 4097 SEEK_END (by decide) (by decide) (by decide)).2.2.2
      (by decide)⟩

/-! ## setup and teardown -/

theorem remove_null (k : Kern) (h : k.lp = none) : shm_access_remove k = (k, 0) := by
  unfold shm_access_remove
  rw [h]

theorem remove_ret (k : Kern) : (shm_access_remove k).2 = 0 := by
  unfold shm_access_remove
  cases k.lp <;> rfl

theorem remove_lp (k : Kern) : (shm_access_remove k).1.lp = none := by
  unfold shm_access_remove
  cases h : k.lp with
  | none => exact h
  | some l => rfl

/-- C13: teardown never fails and is idempotent. It always returns success; on a window that
was never set up or is already torn down (`lp` is NULL) it changes nothing; and a teardown
after a teardown ends in the same state as the single teardown, with the window absent. -/
theorem C13_teardown_idempotent (k : Kern) :
    (shm_access_remove k).2 = 0
      ∧ (k.lp = none → shm_access_remove k = (k, 0))
      ∧ (∀ regions : List (Nat × Nat),
          shm_access_remove (Kern.init regions) = (Kern.init regions, 0))
      ∧ (shm_access_remove k).1.lp = none
      ∧ shm_access_remove (shm_access_remove k).1 = ((shm_access_remove k).1, 0) :=
  ⟨remove_ret k, remove_null k, fun _ => rfl, remove_lp k,
    remove_null _ (remove_lp k)⟩

theorem C13_teardown_idempotent_witness :
    shm_access_remove (Kern.init [(0, 16)]) = (Kern.init [(0, 16)], 0) :=
  (C13_teardown_idempotent (Kern.init [(0, 16)])).2.1 (by decide)

theorem request_mem_region_some (regions r : List (Nat × Nat)) (start n : Nat)
    (h : request_mem_region regions start n = some r) : r = (start, n) :: regions := by
  unfold request_mem_region at h
  split at h
  · exact absurd h (by simp)
  · exact (Option.some.inj h).symm

theorem release_after_request (regions : List (Nat × Nat)) (start n : Nat) :
    release_mem_region ((start, n) :: regions) start n = regions := by
  unfold release_mem_region
  simp

/-- C15: setup unwinds on failure. Whenever `shm_access_probe` returns an error, the error is
`-ENOMEM`, `-EBUSY` or `-EIO`, and on return nothing acquired by the call is still held: the
reserved regions, the mappings and the number of allocated bookkeeping blocks are what they
were before the call, no block was freed twice, and the block `lp` points at is not allocated. -/
theorem C15_setup_unwinds (mem_start mem_size : Nat) (kmalloc : Option shm_access_local)
    (ioremap_nocache : Nat) (k : Kern)
    (hfail : (shm_access_probe mem_start mem_size kmalloc ioremap_nocache k).2 ≠ 0) :
    ((shm_access_probe mem_start mem_size kmalloc ioremap_nocache k).2 = -ENOMEM
        ∨ (shm_access_probe mem_start mem_size kmalloc ioremap_nocache k).2 = -EBUSY
        ∨ (shm_access_probe mem_start mem_size kmalloc ioremap_nocache k).2 = - EIO)
      ∧ (shm_access_probe mem_start mem_size kmalloc ioremap_nocache k).1.regions = k.regions
      ∧ (shm_access_probe mem_start mem_size kmalloc ioremap_nocache k).1.maps = k.maps
      ∧ (shm_access_probe mem_start mem_size kmalloc ioremap_nocache k).1.blocks = k.blocks
      ∧ (shm_access_probe mem_start mem_size kmalloc ioremap_nocache k).1.bad_frees = k.bad_frees
      ∧ (shm_access_probe mem_start mem_size kmalloc ioremap_nocache k).1.lp_live = false := by
  cases kmalloc with
  | none =>
    unfold shm_access_probe
    exact ⟨Or.inl rfl, rfl, rfl, rfl, rfl, rfl⟩
  | some fresh =>
    unfold shm_access_probe at hfail ⊢
    simp only at hfail ⊢
    cases hreq : request_mem_region k.regions mem_start
        (toU64 (((toU64 ((mem_start : Int) + (mem_size : Int) - 1) : Nat) : Int)
          - (mem_start : Int) + 1)) with
    | none =>
      simp only [hreq] at hfail ⊢
      refine ⟨Or.inr (Or.inl (by first | rfl | trivial)), ?_, ?_, ?_, ?_, ?_⟩ <;> simp [kfree]
    | some regions =>
      have hr := request_mem_region_some _ _ _ _ hreq
      simp only [hreq] at hfail ⊢
      by_cases hva : ioremap_nocache = 0
      · simp only [hva, if_true] at hfail ⊢
        subst hr
        refine ⟨Or.inr (Or.inr (by first | rfl | trivial)), ?_, ?_, ?_, ?_, ?_⟩ <;>
          simp [kfree, release_after_request]
      · simp [hva] at hfail

theorem C15_setup_unwinds_witness :
    ((shm_access_probe 0x40000000 0x10000000 (some ⟨0, 0, 0⟩) 0 (Kern.init [(0, 16)])).2 = -ENOMEM
        ∨ (shm_access_probe 0x40000000 0x10000000 (some ⟨0, 0, 0⟩) 0 (Kern.init [(0, 16)])).2
            = -EBUSY
        ∨ (shm_access_probe 0x40000000 0x10000000 (some ⟨0, 0, 0⟩) 0 (Kern.init [(0, 16)])).2
            = - EIO)
      ∧ (shm_access_probe 0x40000000 0x10000000 (some ⟨0, 0, 0⟩) 0 (Kern.init [(0, 16)])).1.regions
          = [(0, 16)]
      ∧ (shm_access_probe 0x40000000 0x10000000 (some ⟨0, 0, 0⟩) 0 (Kern.init [(0, 16)])).1.maps
          = []
      ∧ (shm_access_probe 0x40000000 0x10000000 (some ⟨0, 0, 0⟩) 0 (Kern.init [(0, 16)])).1.blocks
          = 0
      ∧ (shm_access_probe 0x40000000 0x10000000 (some ⟨0, 0, 0⟩) 0
            (Kern.init [(0, 16)])).1.bad_frees = 0
      ∧ (shm_access_probe 0x40000000 0x10000000 (some ⟨0, 0, 0⟩) 0
            (Kern.init [(0, 16)])).1.lp_live = false :=
  C15_setup_unwinds 0x40000000 0x10000000 (some ⟨0, 0, 0⟩) 0 (Kern.init [(0, 16)]) (by decide)

/-- C16 (the code at the failing input): from the initial state, a setup that fails because
another owner holds the region returns `-EBUSY` and leaves `lp` non-NULL, pointing at the freed
record; a read then does not fail with `-EFAULT` (it returns 1), and a teardown is not a
no-op: it releases the other owner's reservation and frees the record a second time. A setup
whose mapping fails returns `-EIO` and leaves `lp` non-NULL as well. -/
theorem C16_failed_setup :
    shm_access_probe 0x40000000 0x10000000 (some ⟨0, 0, 0xdead0001⟩) 0xffff0000
          (Kern.init [(0x40000000, 0x10000000)])
        = ({ lp := some ⟨0x40000000, 0x4fffffff, 0xdead0001⟩, lp_live := false, blocks := 0,
             bad_frees := 0, regions := [(0x40000000, 0x10000000)], maps := [] }, -EBUSY)
      ∧ (shm_access_read 0x10000000
          (shm_access_probe 0x40000000 0x10000000 (some ⟨0, 0, 0xdead0001⟩) 0xffff0000
            (Kern.init [(0x40000000, 0x10000000)])).1.lp
          (fun a => a % 256) [9] 1 0).ret = 1
      ∧ shm_access_remove
          (shm_access_probe 0x40000000 0x10000000 (some ⟨0, 0, 0xdead0001⟩) 0xffff0000
            (Kern.init [(0x40000000, 0x10000000)])).1
        = ({ lp := none, lp_live := false, blocks := 0, bad_frees := 1, regions := [],
             maps := [] }, 0)
      ∧ shm_access_probe 0x40000000 0x10000000 (some ⟨0, 0, 0xdead0001⟩) 0 (Kern.init [])
        = ({ lp := some ⟨0x40000000, 0x4fffffff, 0⟩, lp_live := false, blocks := 0,
             bad_frees := 0, regions := [], maps := [] }, - EIO) := by
  decide

/-! ## The session offset -/

theorem toS64_below (mem_size n : Nat) (hsz : mem_size < 9223372036854775808)
    (h : n ≤ mem_size) : 0 ≤ toS64 n ∧ toS64 n ≤ mem_size := by
  rw [toS64_of_lt n (by omega)]
  omega

theorem unsigned_below (mem_size : Nat) (i : Int) (hsz : mem_size < 9223372036854775808)
    (hi : InS64 i) (h : ¬ toU64 i ≥ mem_size) : 0 ≤ i ∧ i ≤ mem_size := by
  obtain ⟨h0, h1⟩ := hi
  by_cases hn : i < 0
  · rw [toU64_of_neg i (by omega) hn] at h
    omega
  · rw [toU64_of_range i (by omega) (by omega)] at h
    omega

theorem wrapped_below (mem_size : Nat) (i : Int) (hsz : mem_size < 9223372036854775808)
    (h : ¬ toU64 i ≥ mem_size) :
    0 ≤ toS64 (toU64 i) ∧ toS64 (toU64 i) ≤ mem_size :=
  toS64_below mem_size (toU64 i) hsz (by omega)

theorem lseek_keeps_offset_in_window (mem_size : Nat) (file : File) (offset orig : Int)
    (hsz : mem_size < 9223372036854775808) (ho : InS64 offset)
    (h : 0 ≤ file.f_pos ∧ file.f_pos ≤ mem_size) :
    0 ≤ (shm_access_lseek mem_size file offset orig).1.f_pos
      ∧ (shm_access_lseek mem_size file offset orig).1.f_pos ≤ mem_size := by
  by_cases e0 : orig = SEEK_SET
  · subst e0
    rw [lseek_set_eq]
    split
    · exact h
    · next hlt => exact unsigned_below mem_size offset hsz ho hlt
  · by_cases e1 : orig = SEEK_CUR
    · subst e1
      rw [lseek_cur_eq, wrapS64_unsigned]
      split
      · exact h
      · next hlt => exact wrapped_below mem_size _ hsz hlt
    · by_cases e2 : orig = SEEK_END
      · subst e2
        rw [lseek_end_eq, toU64_toS64 _ (toU64_lt _)]
        split
        · exact h
        · next hlt => exact wrapped_below mem_size _ hsz hlt
      · rw [lseek_other_eq mem_size file offset orig e0 e1 e2]
        exact h

/-- Wherever a transfer starts and whatever length is requested, the position it would store
is at most the size. -/
theorem clamp_advance (mem_size count : Nat) (ppos : Int)
    (hsz : mem_size < 9223372036854775808) (hcount : count < 18446744073709551616) :
    (toU64 ppos + toU64 (clamp mem_size (toU64 ppos) count)) % 18446744073709551616
      ≤ mem_size := by
  rw [clamp_unsigned mem_size (toU64 ppos) count hcount]
  have hp := toU64_lt ppos
  split
  · unfold toU64 at hp ⊢
    omega
  · omega

theorem read_keeps_offset_in_window (mem_size : Nat) (lp : Option shm_access_local) (io : Mem)
    (buf : List Nat) (count : Nat) (ppos : Int)
    (hsz : mem_size < 9223372036854775808) (hcount : count < 18446744073709551616)
    (h : 0 ≤ ppos ∧ ppos ≤ mem_size) :
    0 ≤ (shm_access_read mem_size lp io buf count ppos).ppos
      ∧ (shm_access_read mem_size lp io buf count ppos).ppos ≤ mem_size := by
  cases lp with
  | none => exact h
  | some l =>
    by_cases hc : (copy_to_user buf io (window_addr l (toU64 ppos))
        (toU64 (clamp mem_size (toU64 ppos) count))).2 = 0
    · rw [read_copy_ok mem_size l io buf count ppos hc]
      exact toS64_below mem_size _ hsz (clamp_advance mem_size count ppos hsz hcount)
    · rw [read_copy_fail mem_size l io buf count ppos hc]
      exact h

theorem write_keeps_offset_in_window (mem_size : Nat) (lp : Option shm_access_local) (io : Mem)
    (buf : List Nat) (count : Nat) (ppos : Int)
    (hsz : mem_size < 9223372036854775808) (hcount : count < 18446744073709551616)
    (h : 0 ≤ ppos ∧ ppos ≤ mem_size) :
    0 ≤ (shm_access_write mem_size lp io buf count ppos).ppos
      ∧ (shm_access_write mem_size lp io buf count ppos).ppos ≤ mem_size := by
  cases lp with
  | none => exact h
  | some l =>
    by_cases hc : (copy_from_user io (window_addr l (toU64 ppos)) buf
        (toU64 (clamp mem_size (toU64 ppos) count))).2 = 0
    · rw [write_copy_ok mem_size l io buf count ppos hc]
      exact toS64_below mem_size _ hsz (clamp_advance mem_size count ppos hsz hcount)
    · rw [write_copy_fail mem_size l io buf count ppos hc]
      exact h

theorem step_keeps_offset_in_window (mem_size : Nat) (lp : Option shm_access_local)
    (s : File × Mem) (op : Op) (hsz : mem_size < 9223372036854775808) (ht : op.typed)
    (h : 0 ≤ s.1.f_pos ∧ s.1.f_pos ≤ mem_size) :
    0 ≤ (step mem_size lp s op).1.f_pos ∧ (step mem_size lp s op).1.f_pos ≤ mem_size := by
  cases op with
  | seek offset orig => exact lseek_keeps_offset_in_window mem_size s.1 offset orig hsz ht h
  | read buf count => exact read_keeps_offset_in_window mem_size lp s.2 buf count _ hsz ht h
  | write buf count => exact write_keeps_offset_in_window mem_size lp s.2 buf count _ hsz ht h

theorem run_keeps_offset_in_window (mem_size : Nat) (lp : Option shm_access_local)
    (hsz : mem_size < 9223372036854775808) (ops : List Op) :
    ∀ s : File × Mem, (∀ op ∈ ops, op.typed) → (0 ≤ s.1.f_pos ∧ s.1.f_pos ≤ mem_size) →
      0 ≤ (run mem_size lp s ops).1.f_pos ∧ (run mem_size lp s ops).1.f_pos ≤ mem_size := by
  induction ops with
  | nil => intro s _ h; exact h
  | cons op rest ih =>
    intro s ht h
    have hstep := step_keeps_offset_in_window mem_size lp s op hsz
      (ht op (List.mem_cons_self op rest)) h
    exact ih (step mem_size lp s op) (fun o ho => ht o (List.mem_cons_of_mem op ho)) hstep

/-- C17: session offset invariant. Starting from a freshly opened session (offset 0), after
every finite sequence of seek, read and write calls with arbitrary arguments, whether they
succeed or fail and whatever the window state, the caller's buffers and the lengths (also
lengths that wrap the offset + length sum), the session offset satisfies
`0 <= offset <= size`. -/
theorem C17_offset_invariant (mem_size : Nat) (lp : Option shm_access_local) (io : Mem)
    (ops : List Op) (hsz : mem_size < 9223372036854775808) (ht : ∀ op ∈ ops, op.typed) :
    0 ≤ (run mem_size lp ({ f_pos := 0 }, io) ops).1.f_pos
      ∧ (run mem_size lp ({ f_pos := 0 }, io) ops).1.f_pos ≤ mem_size :=
  run_keeps_offset_in_window mem_size lp hsz ops ({ f_pos := 0 }, io) ht
    ⟨le_refl 0, Int.ofNat_nonneg mem_size⟩

theorem C17_offset_invariant_witness :
    0 ≤ (run 4096 (some ⟨0, 4095, 100⟩) ({ f_pos := 0 }, fun _ => 0)
          [Op.seek 16 0, Op.read (List.replicate 8 0) 18446744073709551608,
           Op.write [1, 2, 3] 3, Op.seek 96 2, Op.read (List.replicate 200 0) 200,
           Op.seek (-1) 1]).1.f_pos
      ∧ (run 4096 (some ⟨0, 4095, 100⟩) ({ f_pos := 0 }, fun _ => 0)
          [Op.seek 16 0, Op.read (List.replicate 8 0) 18446744073709551608,
           Op.write [1, 2, 3] 3, Op.seek 96 2, Op.read (List.replicate 200 0) 200,
           Op.seek (-1) 1]).1.f_pos ≤ (4096 : Nat) :=
  C17_offset_invariant 4096 (some ⟨0, 4095, 100⟩) (fun _ => 0)
    [Op.seek 16 0, Op.read (List.replicate 8 0) 18446744073709551608,
     Op.write [1, 2, 3] 3, Op.seek 96 2, Op.read (List.replicate 200 0) 200,
     Op.seek (-1) 1]
    (by decide) (by decide)

end ShmAccess
